import Mathlib

/-
Shallow embedding of the beepee measurement-analytics code, translated from
src/main.rs and src/database.rs.  Exact rational values (`num_rational`'s
`Rational32`, a reduced fraction of `i32`s) are modelled as Lean's `Rat`;
division by an exact zero, which makes `Ratio` panic, is modelled explicitly
as an aborted run.  Machine-integer form values are modelled as `Int` with the
`i32`/`i64` ranges enforced at the parsing boundary, as `str::parse` does.
-/

/-- A civil (proleptic Gregorian) calendar date, as chrono's `NaiveDate`. -/
structure Date where
  year : Int
  month : Nat
  day : Nat
deriving DecidableEq

/-- The proleptic Gregorian leap-year rule used by chrono. -/
def isLeapYear (y : Int) : Bool :=
  (y % 4 == 0 && y % 100 != 0) || y % 400 == 0

/-- Number of days of month `m` of year `y`. -/
def daysInMonth (y : Int) (m : Nat) : Nat :=
  if m = 2 then (if isLeapYear y then 29 else 28)
  else if m = 4 ∨ m = 6 ∨ m = 9 ∨ m = 11 then 30
  else 31

/-- chrono's `NaiveDate::pred`: the previous civil date. -/
def Date.pred (d : Date) : Date :=
  if 1 < d.day then ⟨d.year, d.month, d.day - 1⟩
  else if 1 < d.month then ⟨d.year, d.month - 1, daysInMonth d.year (d.month - 1)⟩
  else ⟨d.year - 1, 12, 31⟩

/-- Chronological order on civil dates. -/
def dateLt (a b : Date) : Prop :=
  a.year < b.year ∨
    (a.year = b.year ∧ (a.month < b.month ∨ (a.month = b.month ∧ a.day < b.day)))

/-- A date whose `%Y-%m-%d` rendering is the usual ten-character form:
    four-digit year, valid month and day ranges. -/
def validDate (d : Date) : Prop :=
  1000 ≤ d.year ∧ d.year ≤ 9999 ∧ 1 ≤ d.month ∧ d.month ≤ 12 ∧ 1 ≤ d.day ∧ d.day ≤ 31

instance (a b : Date) : Decidable (dateLt a b) := by
  unfold dateLt
  infer_instance

instance (d : Date) : Decidable (validDate d) := by
  unfold validDate
  infer_instance

/-- A measurement's local timestamp, reduced to the two projections the
    bucketing pass reads: `timestamp.date().naive_local()` and
    `timestamp.hour()` (main.rs 343-355). -/
structure Timestamp where
  date : Date
  hour : Nat
deriving DecidableEq

/-- The day-boundary configuration snapshot (`config_guard.hours`,
    main.rs 321-326): integer hour-of-day cut points. -/
structure Hours where
  morning_start : Nat
  morning_end : Nat
  midday_start : Nat
  midday_end : Nat
  evening_start : Nat
deriving DecidableEq

/-- `model::BloodPressureMeasurement`: the fields carried by the rows the
    bucketing pass and the min/max fold consume. -/
structure BloodPressureMeasurement where
  id : Int
  timestamp : Timestamp
  systolic_mmhg : Int
  diastolic_mmhg : Int
  pulse_bpm : Int
  spo2_percent : Option Int
deriving DecidableEq

/-- `model::DailyBloodPressureMeasurements`: one calendar day's bucket with
    three named slots plus the `other` overflow list.  The key is kept as the
    formatted date string (a byte sequence). -/
structure DailyBloodPressureMeasurements where
  date_string : List Nat
  morning : Option BloodPressureMeasurement
  midday : Option BloodPressureMeasurement
  evening : Option BloodPressureMeasurement
  other : List BloodPressureMeasurement
deriving DecidableEq

/-- `DailyBloodPressureMeasurements::new_empty` (main.rs 353). -/
def DailyBloodPressureMeasurements.new_empty (ds : List Nat) :
    DailyBloodPressureMeasurements :=
  ⟨ds, none, none, none, []⟩

/-- Big-endian decimal digits of `n` zero-padded to width `w`, as UTF-8 byte
    values (`48 + digit`). -/
def pad : Nat → Nat → List Nat
  | 0, _ => []
  | w + 1, n => pad w (n / 10) ++ [48 + n % 10]

/-- Unpadded big-endian decimal digits, fuel-based so that it reduces. -/
def digitsBEAux : Nat → Nat → List Nat
  | 0, _ => []
  | fuel + 1, n => if n = 0 then [] else digitsBEAux fuel (n / 10) ++ [48 + n % 10]

/-- Unpadded big-endian decimal digits of a positive number. -/
def digitsBE (n : Nat) : List Nat :=
  digitsBEAux n n

/-- The year part of `%Y`: zero-padded to four digits for years `0..=9999`
    (the only range any theorem below relies on); wider years are rendered
    unpadded. -/
def padYear (n : Nat) : List Nat :=
  if n < 10000 then pad 4 n else digitsBE n

/-- `day.format("%Y-%m-%d").to_string()` (main.rs 349) as its UTF-8 byte
    sequence; 45 is the dash.  Negative years carry a leading sign, as chrono
    renders them. -/
def fmtDate (d : Date) : List Nat :=
  (if d.year < 0 then [45] else []) ++
    padYear d.year.natAbs ++ 45 :: (pad 2 d.month ++ 45 :: pad 2 d.day)

/-- Byte-lexicographic strict order: how Rust's `String` `Ord`, and hence the
    `BTreeMap` over date-string keys, compares keys. -/
def lexLt : List Nat → List Nat → Bool
  | [], [] => false
  | [], _ :: _ => true
  | _ :: _, [] => false
  | a :: xs, b :: ys => if a < b then true else if b < a then false else lexLt xs ys

/-- The `BTreeMap<String, DailyBloodPressureMeasurements>` of the bucketing
    pass, modelled as an association list sorted ascending by key. -/
abbrev BucketMap := List (List Nat × DailyBloodPressureMeasurements)

/-- `day_to_measurements.entry(k).or_insert_with(init)` followed by the
    in-place slot update `f` (main.rs 351-371): apply `f` to the existing
    entry, or insert `f init` at the key's sorted position. -/
def mapUpsert (k : List Nat)
    (f : DailyBloodPressureMeasurements → DailyBloodPressureMeasurements)
    (init : DailyBloodPressureMeasurements) : BucketMap → BucketMap
  | [] => [(k, f init)]
  | (k', v) :: rest =>
    if lexLt k k' then (k, f init) :: (k', v) :: rest
    else if lexLt k' k then (k', v) :: mapUpsert k f init rest
    else (k', f v) :: rest

/-- The date a measurement is attributed to (main.rs 343-347): the civil date
    of its timestamp, rolled back one day when the hour is strictly before
    `morning_start`. -/
def bucketDate (hours : Hours) (ts : Timestamp) : Date :=
  if ts.hour < hours.morning_start then ts.date.pred else ts.date

/-- The slot-assignment chain run on the fetched-or-created bucket
    (main.rs 355-371), first matching branch wins. -/
def addToDaily (hours : Hours) (m : BloodPressureMeasurement)
    (entry : DailyBloodPressureMeasurements) : DailyBloodPressureMeasurements :=
  if m.timestamp.hour < hours.morning_start ∧ entry.evening = none then
    { entry with evening := some m }
  else if hours.morning_start ≤ m.timestamp.hour ∧ m.timestamp.hour < hours.morning_end ∧
      entry.morning = none then
    { entry with morning := some m }
  else if hours.midday_start ≤ m.timestamp.hour ∧ m.timestamp.hour < hours.midday_end ∧
      entry.midday = none then
    { entry with midday := some m }
  else if hours.evening_start ≤ m.timestamp.hour ∧ entry.evening = none then
    { entry with evening := some m }
  else
    { entry with other := entry.other ++ [m] }

/-- One iteration of the grouping loop (main.rs 330-372) acting on the map. -/
def bucketStep (hours : Hours) (map : BucketMap) (m : BloodPressureMeasurement) :
    BucketMap :=
  let date_string := fmtDate (bucketDate hours m.timestamp)
  mapUpsert date_string (addToDaily hours m)
    (DailyBloodPressureMeasurements.new_empty date_string) map

/-- The whole grouping loop over the time-ordered measurement sequence. -/
def bucketPass (hours : Hours) (ms : List BloodPressureMeasurement) : BucketMap :=
  ms.foldl (bucketStep hours) []

/-- `day_to_measurements.values().rev().collect()` (main.rs 374-378):
    the emitted bucket list, most recent date key first. -/
def bucketEmit (hours : Hours) (ms : List BloodPressureMeasurement) :
    List DailyBloodPressureMeasurements :=
  ((bucketPass hours ms).map Prod.snd).reverse

/-- Field-wise combination of two optional fields: records where the optional
    field is absent do not participate in that field's reduction. -/
def optCombine (f : Int → Int → Int) : Option Int → Option Int → Option Int
  | some a, some b => some (f a b)
  | some a, none => some a
  | none, o => o

/-- Modelled from the spec: `BloodPressureMeasurement::values_max` lives in
    the `model` module, which is not among the provided sources.  Spec 4.3:
    the field-wise maximum of the running composite and the next measurement,
    absent optional fields excluded from the reduction; identity and
    timestamp of the composite are not meaningful (the accumulator's are
    kept here). -/
def values_max (a b : BloodPressureMeasurement) : BloodPressureMeasurement :=
  { a with
    systolic_mmhg := max a.systolic_mmhg b.systolic_mmhg
    diastolic_mmhg := max a.diastolic_mmhg b.diastolic_mmhg
    pulse_bpm := max a.pulse_bpm b.pulse_bpm
    spo2_percent := optCombine max a.spo2_percent b.spo2_percent }

/-- Modelled from the spec: `BloodPressureMeasurement::values_min`, the
    field-wise minimum counterpart of `values_max`. -/
def values_min (a b : BloodPressureMeasurement) : BloodPressureMeasurement :=
  { a with
    systolic_mmhg := min a.systolic_mmhg b.systolic_mmhg
    diastolic_mmhg := min a.diastolic_mmhg b.diastolic_mmhg
    pulse_bpm := min a.pulse_bpm b.pulse_bpm
    spo2_percent := optCombine min a.spo2_percent b.spo2_percent }

/-- The running max/min accumulation of `get_index` (main.rs 328-341):
    both accumulators start at `None` and are combined with each measurement
    in sequence order. -/
def minMaxFold (ms : List BloodPressureMeasurement) :
    Option BloodPressureMeasurement × Option BloodPressureMeasurement :=
  ms.foldl
    (fun acc m =>
      (some (match acc.1 with
             | some mm => values_max mm m
             | none => m),
       some (match acc.2 with
             | some mm => values_min mm m
             | none => m)))
    (none, none)

/-- A boundary configuration with morning starting at 06:00, used by the
    concrete spec examples. -/
def cfgSix : Hours :=
  ⟨6, 12, 12, 18, 18⟩

example : bucketDate cfgSix ⟨⟨2024, 1, 2⟩, 3⟩ = ⟨2024, 1, 1⟩ := by decide

example : bucketDate cfgSix ⟨⟨2024, 1, 2⟩, 7⟩ = ⟨2024, 1, 2⟩ := by decide

example : Date.pred ⟨2024, 3, 1⟩ = ⟨2024, 2, 29⟩ := by decide

example : Date.pred ⟨2023, 1, 1⟩ = ⟨2022, 12, 31⟩ := by decide

example : fmtDate ⟨2024, 1, 2⟩ =
    [50, 48, 50, 52, 45, 48, 49, 45, 48, 50] := by decide

/-- The `ClientError` enumeration (main.rs 97-107).  The nested
    `ParseIntError`/`ParseRationalError` payloads, which no claim inspects,
    are dropped. -/
inductive ClientError where
  | missingValue (key : String)
  | failedToParseIntValue (key value : String)
  | failedToParseRationalValue (key value : String)
  | intValueZeroOrLess (key : String) (value : Int)
  | rationalValueZeroOrLess (key : String) (value : Rat)
  | intValueTooHigh (key : String) (value maxVal : Int)
  | rationalValueTooLow (key : String) (value minVal : Rat)
  | valueIsInvalidOption (key value : String) (valid_options : List String)
deriving DecidableEq

instance {ε α : Type} [DecidableEq ε] [DecidableEq α] :
    DecidableEq (Except ε α) := fun x y =>
  match x, y with
  | .ok a, .ok b =>
    match decEq a b with
    | isTrue h => isTrue (by rw [h])
    | isFalse h => isFalse (by intro he; cases he; exact h rfl)
  | .error a, .error b =>
    match decEq a b with
    | isTrue h => isTrue (by rw [h])
    | isFalse h => isFalse (by intro he; cases he; exact h rfl)
  | .ok _, .error _ => isFalse (by intro he; cases he)
  | .error _, .ok _ => isFalse (by intro he; cases he)

/-- Outcome of one request handler: a constructed value, a `ClientError`
    (rendered as HTTP 400), or an aborted run: the Rust process panicking —
    how `num_rational`'s `Ratio` reacts to a zero divisor, how `.expect`
    reacts to a parse failure, and how debug builds react to `i32` overflow
    in the rational products.  Release builds wrap that overflow to a
    garbage fraction instead; either way the exact result is never
    produced, so both are modelled as `panicked`. -/
inductive Run (α : Type) where
  | ok (a : α)
  | err (e : ClientError)
  | panicked
deriving DecidableEq

/-- The numeric value of a nonempty all-digit character run, `none`
    otherwise. -/
def digitsVal (cs : List Char) : Option Nat :=
  if cs = [] then none
  else
    cs.foldl
      (fun acc c =>
        match acc with
        | none => none
        | some n => if c.isDigit then some (n * 10 + (c.toNat - 48)) else none)
      (some 0)

/-- The sign-and-digits core shared by the std integer parsers. -/
def parseIntCore : List Char → Option Int
  | '+' :: rest => (digitsVal rest).map (fun n => (n : Int))
  | '-' :: rest => (digitsVal rest).map (fun n => -(n : Int))
  | cs => (digitsVal cs).map (fun n => (n : Int))

/-- Rust `str::parse` into a bounded signed integer type: optional sign,
    nonempty digit run, range check; `none` models `ParseIntError`. -/
def parseIntIn (lo hi : Int) (s : String) : Option Int :=
  match parseIntCore s.data with
  | none => none
  | some v => if lo ≤ v ∧ v ≤ hi then some v else none

/-- `str::parse::<i32>`. -/
def parseI32 (s : String) : Option Int :=
  parseIntIn (-(2 ^ 31)) (2 ^ 31 - 1) s

/-- `str::parse::<i64>`. -/
def parseI64 (s : String) : Option Int :=
  parseIntIn (-(2 ^ 63)) (2 ^ 63 - 1) s

/-- `num_rational`'s `Ratio::new` on `i32`s: reduce and normalize the sign
    into the denominator being positive; a zero denominator is a panic
    (`none`). -/
def ratioNew (n d : Int) : Option Rat :=
  if d = 0 then none
  else if d < 0 then some (mkRat (-n) d.natAbs)
  else some (mkRat n d.natAbs)

/-- Whether a reduced fraction is representable as a `Rational32`: numerator
    magnitude and denominator within the `i32` range.  (The single corner
    numerator value `-2^31`, which the sign normalization could not negate,
    is conservatively excluded.) -/
def ratFits (q : Rat) : Bool :=
  decide (q.num.natAbs ≤ 2 ^ 31 - 1) && decide (q.den ≤ 2 ^ 31 - 1)

/-- `Ratio<i32>` multiplication.  Both operands are kept reduced and
    `num_rational` pre-reduces crosswise with gcds, so the `i32` products it
    forms are exactly the reduced exact result's numerator and denominator;
    when those leave the `i32` range the program panics (debug) or wraps to
    a non-exact value (release) — both modelled as `none`.  Exact
    otherwise. -/
def ratMul (a b : Rat) : Option Rat :=
  let r := mkRat (a.num * b.num) ((a.den : Int) * (b.den : Int)).natAbs
  if ratFits r then some r else none

/-- Modelled from the spec: `numerism::r32_from_decimal` lives in the
    `numerism` module, which is not among the provided sources.  Spec 4.1:
    an optional leading sign, a run of digits, an optional single decimal
    point followed by more digits; fails (`MalformedDecimal`, here `none`)
    when the string is empty, has more than one point, has other characters,
    or the scale `10 ^ fractionalDigits` overflows `i32` (more than nine
    fractional digits); the result is the exact reduced fraction with the
    whole-and-fractional digits over the scale. -/
def r32_from_decimal (s : String) : Option Rat :=
  let body := match s.data with
    | '+' :: rest => (1, rest)
    | '-' :: rest => (-1, rest)
    | rest => ((1 : Int), rest)
  match body.2.splitOn '.' with
  | [ds] => (digitsVal ds).map (fun n => mkRat (body.1 * (n : Int)) 1)
  | [ds, fs] =>
    match digitsVal ds, digitsVal fs with
    | some i, some f =>
      if fs.length ≤ 9 then
        some (mkRat (body.1 * ((i * 10 ^ fs.length + f : Nat) : Int))
          (10 ^ fs.length))
      else none
    | _, _ => none
  | _ => none

/-- The parsed request form, `HashMap<String, String>` modelled as an
    association list; `kvGet` is `HashMap::get`. -/
abbrev FormData := List (String × String)

def kvGet (kv : FormData) (key : String) : Option String :=
  (kv.find? (fun p => p.1 == key)).map Prod.snd

/-- `get_form_i32_gt0` (main.rs 727-739).  Note the guard is `value < 0`:
    zero is accepted even though the error variant says zero or less. -/
def get_form_i32_gt0 (kv : FormData) (key : String) :
    Except ClientError (Option Int) :=
  match kvGet kv key with
  | none => .ok none
  | some sv =>
    match parseI32 sv with
    | none => .error (.failedToParseIntValue key sv)
    | some v => if v < 0 then .error (.intValueZeroOrLess key v) else .ok (some v)

/-- `get_req_form_i32_gt0` (main.rs 741-747). -/
def get_req_form_i32_gt0 (kv : FormData) (key : String) :
    Except ClientError Int :=
  match get_form_i32_gt0 kv key with
  | .ok (some i) => .ok i
  | .ok none => .error (.missingValue key)
  | .error e => .error e

/-- `get_form_i64` (main.rs 749-757). -/
def get_form_i64 (kv : FormData) (key : String) :
    Except ClientError (Option Int) :=
  match kvGet kv key with
  | none => .ok none
  | some sv =>
    match parseI64 sv with
    | none => .error (.failedToParseIntValue key sv)
    | some v => .ok (some v)

/-- `get_req_form_i64` (main.rs 759-765). -/
def get_req_form_i64 (kv : FormData) (key : String) :
    Except ClientError Int :=
  match get_form_i64 kv key with
  | .ok (some i) => .ok i
  | .ok none => .error (.missingValue key)
  | .error e => .error e

/-- `get_form_r32` (main.rs 767-775). -/
def get_form_r32 (kv : FormData) (key : String) :
    Except ClientError (Option Rat) :=
  match kvGet kv key with
  | none => .ok none
  | some sv =>
    match r32_from_decimal sv with
    | none => .error (.failedToParseRationalValue key sv)
    | some v => .ok (some v)

/-- `get_form_r32_gt0` (main.rs 777-788).  The guard is `v < 0`: an exact
    zero is accepted. -/
def get_form_r32_gt0 (kv : FormData) (key : String) :
    Except ClientError (Option Rat) :=
  match get_form_r32 kv key with
  | .error e => .error e
  | .ok none => .ok none
  | .ok (some v) =>
    if v < 0 then .error (.rationalValueZeroOrLess key v) else .ok (some v)

/-- `get_req_form_r32` (main.rs 790-796). -/
def get_req_form_r32 (kv : FormData) (key : String) :
    Except ClientError Rat :=
  match get_form_r32 kv key with
  | .ok (some v) => .ok v
  | .ok none => .error (.missingValue key)
  | .error e => .error e

/-- `get_req_form_r32_gt0` (main.rs 798-804). -/
def get_req_form_r32_gt0 (kv : FormData) (key : String) :
    Except ClientError Rat :=
  match get_form_r32_gt0 kv key with
  | .ok (some v) => .ok v
  | .ok none => .error (.missingValue key)
  | .error e => .error e

/-- `get_measurement_from_form` (main.rs 806-828), with `Local::now()`
    passed in as `now`. -/
def get_measurement_from_form (kv : FormData) (now : Timestamp) :
    Except ClientError BloodPressureMeasurement :=
  match get_req_form_i32_gt0 kv "systolic_mmhg" with
  | .error e => .error e
  | .ok systolic_mmhg =>
  match get_req_form_i32_gt0 kv "diastolic_mmhg" with
  | .error e => .error e
  | .ok diastolic_mmhg =>
  match get_req_form_i32_gt0 kv "pulse_bpm" with
  | .error e => .error e
  | .ok pulse_bpm =>
  match get_form_i32_gt0 kv "spo2_percent" with
  | .error e => .error e
  | .ok spo2_percent =>
  match spo2_percent with
  | some sat =>
    if sat > 100 then .error (.intValueTooHigh "spo2_percent" sat 100)
    else .ok ⟨-1, now, systolic_mmhg, diastolic_mmhg, pulse_bpm, spo2_percent⟩
  | none => .ok ⟨-1, now, systolic_mmhg, diastolic_mmhg, pulse_bpm, spo2_percent⟩

/-- `model::BodyMassMeasurement`. -/
structure BodyMassMeasurement where
  id : Int
  timestamp : Timestamp
  mass_kg : Rat
  bmi : Option Rat
deriving DecidableEq

/-- `Ratio<i32>` division, `Ratio::new(a.numer * b.denom, a.denom *
    b.numer)` with crosswise gcd pre-reduction: a zero divisor makes
    `Ratio::new` panic; an `i32`-overflowing reduced result panics (debug)
    or wraps to a non-exact value (release) — all modelled as `none`.
    Exact otherwise. -/
def r32Div (a b : Rat) : Option Rat :=
  match ratioNew (a.num * (b.den : Int)) ((a.den : Int) * b.num) with
  | none => none
  | some r => if ratFits r then some r else none

/-- `get_mass_measurement_from_form` (main.rs 830-855), with the configured
    `height_cm` snapshot and `Local::now()` passed in.  `Rational32::new(h,
    100)` is `mkRat h 100`; the `h * h` squaring and the `mass_kg / sqh`
    division can each abort the request. -/
def get_mass_measurement_from_form (kv : FormData) (height_cm : Option Int)
    (now : Timestamp) : Run BodyMassMeasurement :=
  match get_req_form_r32_gt0 kv "mass_kg" with
  | .error e => .err e
  | .ok mass_kg =>
    match height_cm with
    | none => .ok ⟨-1, now, mass_kg, none⟩
    | some h =>
      match ratMul (mkRat h 100) (mkRat h 100) with
      | none => .panicked
      | some square_height_m2 =>
        match r32Div mass_kg square_height_m2 with
        | none => .panicked
        | some bmi => .ok ⟨-1, now, mass_kg, some bmi⟩

/-- `model::BodyTemperatureMeasurement`. -/
structure BodyTemperatureMeasurement where
  id : Int
  timestamp : Timestamp
  location_id : Int
  temperature_celsius : Rat
deriving DecidableEq

/-- `ABSOLUTE_ZERO_CELSIUS` (main.rs 50): `Rational32::new(-27315, 100)`. -/
def ABSOLUTE_ZERO_CELSIUS : Rat :=
  mkRat (-27315) 100

/-- `get_temperature_measurement_from_form` (main.rs 857-874). -/
def get_temperature_measurement_from_form (kv : FormData) (now : Timestamp) :
    Except ClientError BodyTemperatureMeasurement :=
  match get_req_form_i64 kv "location" with
  | .error e => .error e
  | .ok location_id =>
  match get_req_form_r32 kv "temperature_celsius" with
  | .error e => .error e
  | .ok temp_celsius =>
    if temp_celsius < ABSOLUTE_ZERO_CELSIUS then
      .error (.rationalValueTooLow "temperature_celsius" temp_celsius
        ABSOLUTE_ZERO_CELSIUS)
    else .ok ⟨-1, now, location_id, temp_celsius⟩

/-- `model::BloodSugarMeasurement`: concentration canonically in mmol/L. -/
structure BloodSugarMeasurement where
  id : Int
  timestamp : Timestamp
  sugar_mmol_per_l : Rat
deriving DecidableEq

/-- `get_sugar_measurement_from_form` (main.rs 876-903); the
    `sugar_value * factor_to_mmol_per_l` multiplication can abort the
    request. -/
def get_sugar_measurement_from_form (kv : FormData) (now : Timestamp) :
    Run BloodSugarMeasurement :=
  match kvGet kv "sugar_unit_key" with
  | none => .err (.missingValue "sugar_unit_key")
  | some unit_key =>
    let factorRes : Except ClientError Rat :=
      if unit_key = "mmol-per-l" then .ok (mkRat 1 1)
      else if unit_key = "mg-per-dl" then .ok (mkRat 1 18)
      else
        .error (.valueIsInvalidOption "sugar_unit_key" unit_key
          ["mmol-per-l", "mg-per-dl"])
    match factorRes with
    | .error e => .err e
    | .ok factor_to_mmol_per_l =>
    match get_req_form_r32_gt0 kv "sugar_value" with
    | .error e => .err e
    | .ok sugar_value =>
      match ratMul sugar_value factor_to_mmol_per_l with
      | none => .panicked
      | some sugar_mmol_per_l => .ok ⟨-1, now, sugar_mmol_per_l⟩

/-- A `beepee.mass_measurements` row as `get_recent_mass_measurements`
    consumes it: id, timestamp, and the `numeric` mass rendered by the
    database as a decimal string. -/
structure MassRow where
  id : Int
  timestamp : Timestamp
  mass_string : String

/-- One iteration of the row loop of `get_recent_mass_measurements`
    (database.rs 174-188): a parse failure hits `.expect` and panics. -/
def massRowToMeasurement (square_height_m2 : Option Rat) (row : MassRow) :
    Run BodyMassMeasurement :=
  match r32_from_decimal row.mass_string with
  | none => .panicked
  | some mass_kg =>
    match square_height_m2 with
    | none => .ok ⟨row.id, row.timestamp, mass_kg, none⟩
    | some sqh =>
      match r32Div mass_kg sqh with
      | none => .panicked
      | some bmi => .ok ⟨row.id, row.timestamp, mass_kg, some bmi⟩

/-- The row loop of `get_recent_mass_measurements`, panic propagating. -/
def massRowsLoop (square_height_m2 : Option Rat) :
    List MassRow → Run (List BodyMassMeasurement)
  | [] => .ok []
  | row :: rest =>
    match massRowToMeasurement square_height_m2 row with
    | .panicked => .panicked
    | .err e => .err e
    | .ok m =>
      match massRowsLoop square_height_m2 rest with
      | .panicked => .panicked
      | .err e => .err e
      | .ok tail => .ok (m :: tail)

/-- `get_recent_mass_measurements` (database.rs 151-191), given the
    configured height snapshot and the rows the query returned; the
    `square_height_m2` squaring happens once before the row loop and can
    abort the whole request. -/
def get_recent_mass_measurements (height_cm : Option Int)
    (rows : List MassRow) : Run (List BodyMassMeasurement) :=
  match height_cm with
  | none => massRowsLoop none rows
  | some h =>
    match ratMul (mkRat h 100) (mkRat h 100) with
    | none => .panicked
    | some square_height_m2 => massRowsLoop (some square_height_m2) rows

/-- A fixed timestamp for the concrete examples below. -/
def tsNoon : Timestamp :=
  ⟨⟨2024, 1, 2⟩, 12⟩

/-- The measurements held by one optional slot, as a multiset. -/
def optMs : Option BloodPressureMeasurement → Multiset BloodPressureMeasurement
  | some m => {m}
  | none => 0

/-- All measurements held by one daily bucket: the three named slots plus
    the overflow list. -/
def dailyMs (d : DailyBloodPressureMeasurements) :
    Multiset BloodPressureMeasurement :=
  optMs d.morning + optMs d.midday + optMs d.evening +
    (d.other : Multiset BloodPressureMeasurement)

/-- All measurements held anywhere in the bucket map. -/
def mapMs (l : BucketMap) : Multiset BloodPressureMeasurement :=
  (l.map (fun p => dailyMs p.2)).sum

/-- The bucket map invariant: keys strictly ascending in byte order, as a
    `BTreeMap` iteration yields them. -/
def keysSorted (l : BucketMap) : Prop :=
  l.Pairwise (fun p q => lexLt p.1 q.1 = true)

example :
    get_sugar_measurement_from_form
      [("sugar_unit_key", "mg-per-dl"), ("sugar_value", "90")] tsNoon =
      .ok ⟨-1, tsNoon, mkRat 5 1⟩ := by decide

example :
    get_mass_measurement_from_form [("mass_kg", "70")] (some 180) tsNoon =
      .ok ⟨-1, tsNoon, mkRat 70 1, some (mkRat 1750 81)⟩ := by decide

example :
    get_mass_measurement_from_form [("mass_kg", "70")] (some 0) tsNoon =
      .panicked := by decide

example :
    get_temperature_measurement_from_form
      [("location", "1"), ("temperature_celsius", "-300")] tsNoon =
      .error (.rationalValueTooLow "temperature_celsius" (mkRat (-300) 1)
        (mkRat (-27315) 100)) := by decide

example :
    get_measurement_from_form
      [("systolic_mmhg", "0"), ("diastolic_mmhg", "0"), ("pulse_bpm", "0"),
       ("spo2_percent", "0")] tsNoon =
      .ok ⟨-1, tsNoon, 0, 0, 0, some 0⟩ := by decide

example : r32_from_decimal "12.34" = some (mkRat 617 50) := by decide

example : r32_from_decimal "" = none := by decide

example : r32_from_decimal "1.2.3" = none := by decide

theorem ratMul_mkRat (a b : Rat) :
    mkRat (a.num * b.num) ((a.den : Int) * (b.den : Int)).natAbs = a * b := by
  have h : ((a.den : Int) * (b.den : Int)).natAbs = a.den * b.den := by
    simp [Int.natAbs_mul]
  rw [h, Rat.mkRat_eq_div]
  push_cast
  rw [← div_mul_div_comm, Rat.num_div_den, Rat.num_div_den]

theorem ratMul_fits (a b : Rat) (hf : ratFits (a * b) = true) :
    ratMul a b = some (a * b) := by
  simp only [ratMul, ratMul_mkRat]
  rw [if_pos hf]

theorem ratMul_overflow (a b : Rat) (hf : ratFits (a * b) = false) :
    ratMul a b = none := by
  simp only [ratMul, ratMul_mkRat]
  rw [if_neg (by simp [hf])]

theorem ratMul_some (a b c : Rat) (h : ratMul a b = some c) : c = a * b := by
  cases hfb : ratFits (a * b) with
  | false =>
    rw [ratMul_overflow a b hfb] at h
    exact Option.noConfusion h
  | true =>
    rw [ratMul_fits a b hfb] at h
    exact (Option.some.inj h).symm

theorem ratioNew_eq (n d : Int) (hd : d ≠ 0) :
    ratioNew n d = some ((n : ℚ) / (d : ℚ)) := by
  rw [ratioNew, if_neg hd]
  by_cases hneg : d < 0
  · rw [if_pos hneg, Rat.mkRat_eq_div]
    have h1 : ((d.natAbs : Nat) : ℚ) = -(d : ℚ) := by
      rw [Int.cast_natAbs, abs_of_neg hneg]
      push_cast
      ring
    rw [h1]
    push_cast
    rw [neg_div_neg_eq]
  · rw [if_neg hneg, Rat.mkRat_eq_div]
    have h1 : ((d.natAbs : Nat) : ℚ) = (d : ℚ) := by
      rw [Int.cast_natAbs, abs_of_nonneg (not_lt.mp hneg)]
    rw [h1]

theorem ratioNew_div (a b : Rat) (hb : b ≠ 0) :
    ratioNew (a.num * (b.den : Int)) ((a.den : Int) * b.num) =
      some (a / b) := by
  have hbnum : b.num ≠ 0 := Rat.num_ne_zero.mpr hb
  have haden : (a.den : Int) ≠ 0 := by
    exact_mod_cast a.den_nz
  have hden : (a.den : Int) * b.num ≠ 0 := mul_ne_zero haden hbnum
  rw [ratioNew_eq _ _ hden]
  congr 1
  push_cast
  conv_rhs => rw [← Rat.num_div_den a, ← Rat.num_div_den b]
  have hbden : ((b.den : Nat) : ℚ) ≠ 0 := by
    exact_mod_cast b.den_nz
  have haden' : ((a.den : Nat) : ℚ) ≠ 0 := by
    exact_mod_cast a.den_nz
  have hbnum' : ((b.num : Int) : ℚ) ≠ 0 := by
    exact_mod_cast hbnum
  field_simp

theorem r32Div_zero (a : Rat) : r32Div a 0 = none := by
  have h0 : (a.den : Int) * (0 : Rat).num = 0 := by
    have hz : (0 : Rat).num = 0 := rfl
    rw [hz, mul_zero]
  simp [r32Div, h0, ratioNew]

theorem r32Div_fits (a b : Rat) (hb : b ≠ 0) (hf : ratFits (a / b) = true) :
    r32Div a b = some (a / b) := by
  simp only [r32Div, ratioNew_div a b hb]
  rw [if_pos hf]

theorem r32Div_overflow (a b : Rat) (hb : b ≠ 0)
    (hf : ratFits (a / b) = false) : r32Div a b = none := by
  simp only [r32Div, ratioNew_div a b hb]
  rw [if_neg (by simp [hf])]

theorem r32Div_some (a b c : Rat) (h : r32Div a b = some c) :
    b ≠ 0 ∧ c = a / b := by
  by_cases hb : b = 0
  · subst hb
    rw [r32Div_zero] at h
    exact Option.noConfusion h
  · refine ⟨hb, ?_⟩
    cases hfb : ratFits (a / b) with
    | false =>
      rw [r32Div_overflow a b hb hfb] at h
      exact Option.noConfusion h
    | true =>
      rw [r32Div_fits a b hb hfb] at h
      exact (Option.some.inj h).symm

theorem mkRat_hundred (h : Int) : mkRat h 100 = (h : ℚ) / 100 := by
  rw [Rat.mkRat_eq_div]
  norm_num

/-- C1: Day rollover: a measurement whose hour is strictly before
    `morning_start` is attributed to the predecessor of its timestamp's civil
    date, one at or after `morning_start` to its own civil date; with
    `morning_start = 0` no measurement moves to the previous day; with
    `morning_start = 6`, 03:00 on 2024-01-02 lands on 2024-01-01 and 07:00
    the same day on 2024-01-02. -/
theorem bucketing_day_rollover (hours : Hours) (ts : Timestamp) :
    (ts.hour < hours.morning_start → bucketDate hours ts = ts.date.pred) ∧
    (hours.morning_start ≤ ts.hour → bucketDate hours ts = ts.date) ∧
    (hours.morning_start = 0 → bucketDate hours ts = ts.date) ∧
    bucketDate cfgSix ⟨⟨2024, 1, 2⟩, 3⟩ = ⟨2024, 1, 1⟩ ∧
    bucketDate cfgSix ⟨⟨2024, 1, 2⟩, 7⟩ = ⟨2024, 1, 2⟩ := by
  refine ⟨fun h => ?_, fun h => ?_, fun h => ?_, by decide, by decide⟩
  · simp [bucketDate, h]
  · simp [bucketDate, Nat.not_lt.mpr h]
  · simp [bucketDate, h]

theorem bucketing_day_rollover_witness :
    bucketDate cfgSix ⟨⟨2024, 1, 2⟩, 3⟩ = Date.pred ⟨2024, 1, 2⟩ :=
  (bucketing_day_rollover cfgSix ⟨⟨2024, 1, 2⟩, 3⟩).1 (by decide)

/-- C2: Slot assignment: exactly the first matching rule of the ordered
    five-rule list applies (rolled-over evening, morning, midday, evening,
    overflow), and an already-filled named slot is never overwritten, so each
    named slot holds at most one measurement. -/
theorem slot_assignment_first_match (hours : Hours)
    (m : BloodPressureMeasurement) (e : DailyBloodPressureMeasurements) :
    ((m.timestamp.hour < hours.morning_start ∧ e.evening = none) →
      addToDaily hours m e = { e with evening := some m }) ∧
    (¬(m.timestamp.hour < hours.morning_start ∧ e.evening = none) →
     (hours.morning_start ≤ m.timestamp.hour ∧
        m.timestamp.hour < hours.morning_end ∧ e.morning = none) →
      addToDaily hours m e = { e with morning := some m }) ∧
    (¬(m.timestamp.hour < hours.morning_start ∧ e.evening = none) →
     ¬(hours.morning_start ≤ m.timestamp.hour ∧
        m.timestamp.hour < hours.morning_end ∧ e.morning = none) →
     (hours.midday_start ≤ m.timestamp.hour ∧
        m.timestamp.hour < hours.midday_end ∧ e.midday = none) →
      addToDaily hours m e = { e with midday := some m }) ∧
    (¬(m.timestamp.hour < hours.morning_start ∧ e.evening = none) →
     ¬(hours.morning_start ≤ m.timestamp.hour ∧
        m.timestamp.hour < hours.morning_end ∧ e.morning = none) →
     ¬(hours.midday_start ≤ m.timestamp.hour ∧
        m.timestamp.hour < hours.midday_end ∧ e.midday = none) →
     (hours.evening_start ≤ m.timestamp.hour ∧ e.evening = none) →
      addToDaily hours m e = { e with evening := some m }) ∧
    (¬(m.timestamp.hour < hours.morning_start ∧ e.evening = none) →
     ¬(hours.morning_start ≤ m.timestamp.hour ∧
        m.timestamp.hour < hours.morning_end ∧ e.morning = none) →
     ¬(hours.midday_start ≤ m.timestamp.hour ∧
        m.timestamp.hour < hours.midday_end ∧ e.midday = none) →
     ¬(hours.evening_start ≤ m.timestamp.hour ∧ e.evening = none) →
      addToDaily hours m e = { e with other := e.other ++ [m] }) ∧
    (∀ x, e.morning = some x → (addToDaily hours m e).morning = some x) ∧
    (∀ x, e.midday = some x → (addToDaily hours m e).midday = some x) ∧
    (∀ x, e.evening = some x → (addToDaily hours m e).evening = some x) := by
  refine ⟨fun h1 => ?_, fun h1 h2 => ?_, fun h1 h2 h3 => ?_,
    fun h1 h2 h3 h4 => ?_, fun h1 h2 h3 h4 => ?_,
    fun x hx => ?_, fun x hx => ?_, fun x hx => ?_⟩ <;>
    simp only [addToDaily] <;> split_ifs <;> simp_all

theorem slot_assignment_first_match_witness :
    addToDaily cfgSix ⟨1, tsNoon, 120, 80, 60, none⟩
        (DailyBloodPressureMeasurements.new_empty (fmtDate ⟨2024, 1, 2⟩)) =
      { DailyBloodPressureMeasurements.new_empty (fmtDate ⟨2024, 1, 2⟩) with
        midday := some ⟨1, tsNoon, 120, 80, 60, none⟩ } :=
  (slot_assignment_first_match cfgSix ⟨1, tsNoon, 120, 80, 60, none⟩
    (DailyBloodPressureMeasurements.new_empty (fmtDate ⟨2024, 1, 2⟩))).2.2.1
    (by decide) (by decide) (by decide)

/-- C8: Determinism/idempotence: the bucketing pass and the min/max fold are
    pure functions of the input sequence and the day-boundary snapshot, so
    two runs over the same input with the same snapshot produce identical
    output. -/
theorem bucketing_aggregation_deterministic (hours : Hours)
    (ms : List BloodPressureMeasurement)
    (o1 o2 : List DailyBloodPressureMeasurements)
    (p1 p2 : Option BloodPressureMeasurement × Option BloodPressureMeasurement)
    (h1 : o1 = bucketEmit hours ms) (h2 : o2 = bucketEmit hours ms)
    (h3 : p1 = minMaxFold ms) (h4 : p2 = minMaxFold ms) :
    o1 = o2 ∧ p1 = p2 := by
  subst h1
  subst h2
  subst h3
  subst h4
  exact ⟨rfl, rfl⟩

theorem bucketing_aggregation_deterministic_witness :
    ([⟨fmtDate ⟨2024, 1, 2⟩, none, some ⟨1, tsNoon, 120, 80, 60, none⟩, none,
        []⟩] : List DailyBloodPressureMeasurements) =
        bucketEmit cfgSix [⟨1, tsNoon, 120, 80, 60, none⟩] ∧
      ((some ⟨1, tsNoon, 120, 80, 60, none⟩,
          some ⟨1, tsNoon, 120, 80, 60, none⟩) :
        Option BloodPressureMeasurement × Option BloodPressureMeasurement) =
        minMaxFold [⟨1, tsNoon, 120, 80, 60, none⟩] :=
  bucketing_aggregation_deterministic cfgSix [⟨1, tsNoon, 120, 80, 60, none⟩]
    _ _ _ _ (by decide) rfl (by decide) rfl

/-- C7: Temperature range validation: with the location and the temperature
    value parsing successfully, a temperature strictly below the absolute
    zero constant is rejected with `RationalValueTooLow` carrying the field
    name, the value and the bound, before any measurement is constructed; a
    temperature at or above it passes; the bound is exactly -27315/100. -/
theorem temperature_absolute_zero_guard (kv : FormData) (now : Timestamp)
    (loc : Int) (v : Rat)
    (hloc : get_req_form_i64 kv "location" = .ok loc)
    (hv : get_req_form_r32 kv "temperature_celsius" = .ok v) :
    (v < ABSOLUTE_ZERO_CELSIUS →
      get_temperature_measurement_from_form kv now =
        .error (.rationalValueTooLow "temperature_celsius" v
          ABSOLUTE_ZERO_CELSIUS)) ∧
    (ABSOLUTE_ZERO_CELSIUS ≤ v →
      get_temperature_measurement_from_form kv now = .ok ⟨-1, now, loc, v⟩) ∧
    ABSOLUTE_ZERO_CELSIUS = -27315 / 100 := by
  refine ⟨fun hlt => ?_, fun hge => ?_, ?_⟩
  · simp only [get_temperature_measurement_from_form, hloc, hv]
    rw [if_pos hlt]
  · simp only [get_temperature_measurement_from_form, hloc, hv]
    rw [if_neg (not_lt.mpr hge)]
  · rw [ABSOLUTE_ZERO_CELSIUS, Rat.mkRat_eq_div]
    norm_num

theorem temperature_absolute_zero_guard_witness :
    get_temperature_measurement_from_form
        [("location", "1"), ("temperature_celsius", "-300")] tsNoon =
      .error (.rationalValueTooLow "temperature_celsius" (mkRat (-300) 1)
        ABSOLUTE_ZERO_CELSIUS) :=
  (temperature_absolute_zero_guard
    [("location", "1"), ("temperature_celsius", "-300")] tsNoon 1
    (mkRat (-300) 1) (by decide) (by decide)).1 (by decide)

/-- C3 counterexample: the unit conversion is not exact for every submitted
    form: the reachable entry 0.000000001 tagged mg-per-dl (scale 10^9 is
    accepted by the parser) forms the reduced denominator 18 * 10^9, which
    exceeds the `i32` range, so the multiplication aborts the request
    (debug panic; a release build would wrap to a non-exact fraction)
    instead of storing the entered value times 1/18. -/
theorem sugar_unit_counterexample :
    get_sugar_measurement_from_form
        [("sugar_unit_key", "mg-per-dl"), ("sugar_value", "0.000000001")]
        tsNoon = Run.panicked := by
  decide

/-- C3 (amended): Blood sugar unit normalization, within the representable
    range: with the entered value parsing to `v`, unit key `mmol-per-l`
    stores `v * (1/1)` and `mg-per-dl` stores `v * (1/18)` exactly whenever
    the reduced result fits the `i32` numerator/denominator range (as every
    physiological value does; 90 mg/dL is exactly 5 mmol/L); a conversion
    whose reduced result leaves that range aborts the request instead; and
    any other unit key fails with `ValueIsInvalidOption` listing exactly the
    two valid keys, producing no measurement. -/
theorem sugar_unit_normalization (kv : FormData) (now : Timestamp) (v : Rat)
    (uk : String) (huk : kvGet kv "sugar_unit_key" = some uk) :
    (uk = "mmol-per-l" → get_req_form_r32_gt0 kv "sugar_value" = .ok v →
      ratFits (v * (1 / 1)) = true →
      get_sugar_measurement_from_form kv now = .ok ⟨-1, now, v * (1 / 1)⟩) ∧
    (uk = "mg-per-dl" → get_req_form_r32_gt0 kv "sugar_value" = .ok v →
      ratFits (v * (1 / 18)) = true →
      get_sugar_measurement_from_form kv now = .ok ⟨-1, now, v * (1 / 18)⟩) ∧
    (uk = "mg-per-dl" → get_req_form_r32_gt0 kv "sugar_value" = .ok v →
      ratFits (v * (1 / 18)) = false →
      get_sugar_measurement_from_form kv now = .panicked) ∧
    (uk ≠ "mmol-per-l" → uk ≠ "mg-per-dl" →
      get_sugar_measurement_from_form kv now =
        .err (.valueIsInvalidOption "sugar_unit_key" uk
          ["mmol-per-l", "mg-per-dl"])) ∧
    (get_sugar_measurement_from_form
        [("sugar_unit_key", "mg-per-dl"), ("sugar_value", "90")] tsNoon =
      .ok ⟨-1, tsNoon, 5⟩) := by
  have h1 : mkRat 1 1 = (1 / 1 : ℚ) := by
    rw [Rat.mkRat_eq_div]
    norm_num
  have h18 : mkRat 1 18 = (1 / 18 : ℚ) := by
    rw [Rat.mkRat_eq_div]
    norm_num
  refine ⟨fun hu hv hf => ?_, fun hu hv hf => ?_, fun hu hv hf => ?_,
    fun hu1 hu2 => ?_, by decide⟩
  · subst hu
    have hfit : ratMul v (mkRat 1 1) = some (v * (1 / 1)) := by
      rw [h1]
      exact ratMul_fits v _ hf
    simp only [get_sugar_measurement_from_form, huk, hv, if_true, hfit]
  · subst hu
    have hfit : ratMul v (mkRat 1 18) = some (v * (1 / 18)) := by
      rw [h18]
      exact ratMul_fits v _ hf
    simp only [get_sugar_measurement_from_form, huk, hv, if_true]
    rw [if_neg (show ¬("mg-per-dl" = "mmol-per-l") by decide)]
    simp only [hfit]
  · subst hu
    have hover : ratMul v (mkRat 1 18) = none := by
      rw [h18]
      exact ratMul_overflow v _ hf
    simp only [get_sugar_measurement_from_form, huk, hv, if_true]
    rw [if_neg (show ¬("mg-per-dl" = "mmol-per-l") by decide)]
    simp only [hover]
  · simp only [get_sugar_measurement_from_form, huk]
    rw [if_neg hu1, if_neg hu2]

theorem sugar_unit_normalization_witness :
    get_sugar_measurement_from_form
        [("sugar_unit_key", "mg-per-dl"), ("sugar_value", "90")] tsNoon =
      .ok ⟨-1, tsNoon, 5⟩ :=
  (sugar_unit_normalization
    [("sugar_unit_key", "mg-per-dl"), ("sugar_value", "90")] tsNoon
    (mkRat 90 1) "mg-per-dl" (by decide)).2.2.2.2

/-- C9: The positivity validators reject only strictly negative values: with
    the raw string present and parsing to `n` (integer) or `v` (rational),
    the validator errors exactly when the value is negative and accepts it —
    zero included — otherwise; a blood-pressure form of all zeroes produces a
    measurement. -/
theorem validators_accept_zero (kv : FormData) (key s : String) (n : Int)
    (v : Rat) :
    (kvGet kv key = some s → parseI32 s = some n →
      ((n < 0 →
          get_form_i32_gt0 kv key = .error (.intValueZeroOrLess key n)) ∧
       (0 ≤ n → get_form_i32_gt0 kv key = .ok (some n)))) ∧
    (kvGet kv key = some s → r32_from_decimal s = some v →
      ((v < 0 →
          get_form_r32_gt0 kv key =
            .error (.rationalValueZeroOrLess key v)) ∧
       (0 ≤ v → get_form_r32_gt0 kv key = .ok (some v)))) ∧
    (get_measurement_from_form
        [("systolic_mmhg", "0"), ("diastolic_mmhg", "0"), ("pulse_bpm", "0"),
         ("spo2_percent", "0")] tsNoon = .ok ⟨-1, tsNoon, 0, 0, 0, some 0⟩) := by
  refine ⟨fun hs hn => ⟨fun hneg => ?_, fun hnn => ?_⟩,
    fun hs hv => ⟨fun hneg => ?_, fun hnn => ?_⟩, by decide⟩
  · simp only [get_form_i32_gt0, hs, hn]
    rw [if_pos hneg]
  · simp only [get_form_i32_gt0, hs, hn]
    rw [if_neg (not_lt.mpr hnn)]
  · simp only [get_form_r32_gt0, get_form_r32, hs, hv]
    rw [if_pos hneg]
  · simp only [get_form_r32_gt0, get_form_r32, hs, hv]
    rw [if_neg (not_lt.mpr hnn)]

theorem validators_accept_zero_witness :
    get_form_i32_gt0 [("pulse_bpm", "0")] "pulse_bpm" = .ok (some 0) :=
  ((validators_accept_zero [("pulse_bpm", "0")] "pulse_bpm" "0" 0
    (mkRat 0 1)).1 (by decide) (by decide)).2 (by decide)

/-- C5 counterexample: with a configured height of 0 cm, a valid mass form
    does not fail with a DivisionByZero error value — no such `ClientError`
    variant exists — but aborts the request with a panic inside the
    `Rational32` division. -/
theorem arithmetic_failure_counterexample :
    get_mass_measurement_from_form [("mass_kg", "70")] (some 0) tsNoon =
      Run.panicked := by
  decide

/-- C5 (amended): the exact-rational arithmetic of the handlers performs no
    overflow or division-by-zero detection and never produces an `Overflow`
    or `DivisionByZero` error value (the `ClientError` type has no such
    variants); dividing by an exact zero — a configured height of 0 cm
    making the BMI divisor zero — panics instead: whenever the mass parses,
    the handler's outcome at height 0 is the aborted run. -/
theorem arithmetic_failure_behavior (kv : FormData) (now : Timestamp)
    (v : Rat) (hv : get_req_form_r32_gt0 kv "mass_kg" = .ok v) :
    get_mass_measurement_from_form kv (some 0) now = Run.panicked := by
  have h0 : ratMul (mkRat 0 100) (mkRat 0 100) = some 0 := by decide
  simp only [get_mass_measurement_from_form, hv, h0, r32Div_zero]

theorem arithmetic_failure_behavior_witness :
    get_mass_measurement_from_form [("mass_kg", "80")] (some 0) tsNoon =
      Run.panicked :=
  arithmetic_failure_behavior [("mass_kg", "80")] tsNoon (mkRat 80 1)
    (by decide)

theorem square_height_eq (hc : Int) :
    mkRat hc 100 * mkRat hc 100 = ((hc : ℚ) / 100) ^ 2 := by
  rw [mkRat_hundred, pow_two]

theorem massRowToMeasurement_some_bmi (sq : Rat) (row : MassRow)
    (mm : BodyMassMeasurement)
    (h : massRowToMeasurement (some sq) row = .ok mm) :
    mm.bmi = some (mm.mass_kg / sq) := by
  cases hp : r32_from_decimal row.mass_string with
  | none =>
    rw [massRowToMeasurement, hp] at h
    exact Run.noConfusion h
  | some mass =>
    rw [massRowToMeasurement, hp] at h
    simp only at h
    cases hd : r32Div mass sq with
    | none =>
      rw [hd] at h
      exact Run.noConfusion h
    | some bmi =>
      rw [hd] at h
      obtain ⟨hsq, hbmi⟩ := r32Div_some mass sq bmi hd
      cases h
      show some bmi = some (mass / sq)
      rw [hbmi]

theorem massRowToMeasurement_none_bmi (row : MassRow)
    (mm : BodyMassMeasurement) (h : massRowToMeasurement none row = .ok mm) :
    mm.bmi = none := by
  cases hp : r32_from_decimal row.mass_string with
  | none =>
    rw [massRowToMeasurement, hp] at h
    exact Run.noConfusion h
  | some mass =>
    rw [massRowToMeasurement, hp] at h
    simp only at h
    cases h
    rfl

theorem massRowsLoop_all (sqo : Option Rat) (P : BodyMassMeasurement → Prop)
    (hrow : ∀ row mm, massRowToMeasurement sqo row = .ok mm → P mm) :
    ∀ (rows : List MassRow) (l : List BodyMassMeasurement),
      massRowsLoop sqo rows = .ok l → ∀ mm ∈ l, P mm := by
  intro rows
  induction rows with
  | nil =>
    intro l h mm hmm
    rw [massRowsLoop] at h
    cases h
    cases hmm
  | cons row rest ih =>
    intro l h mm hmm
    rw [massRowsLoop] at h
    cases hr : massRowToMeasurement sqo row with
    | panicked =>
      rw [hr] at h
      exact Run.noConfusion h
    | err e =>
      rw [hr] at h
      exact Run.noConfusion h
    | ok m1 =>
      rw [hr] at h
      simp only at h
      cases hl : massRowsLoop sqo rest with
      | panicked =>
        rw [hl] at h
        exact Run.noConfusion h
      | err e =>
        rw [hl] at h
        exact Run.noConfusion h
      | ok tail =>
        rw [hl] at h
        cases h
        rcases List.mem_cons.mp hmm with h1 | h2
        · subst h1
          exact hrow row mm hr
        · exact ih tail hl mm h2

/-- C4 counterexample: the BMI is not computed exactly for every
    configured-height construction: the reachable mass entry 0.000000001 kg
    (scale 10^9 is accepted by the parser) divided by the squared height
    (81/25 for 180 cm) has the reduced denominator 3.24 * 10^9, which
    exceeds the `i32` range, so the division aborts the request (debug
    panic; a release build would wrap to a non-exact fraction) instead of
    constructing a measurement with the exact BMI. -/
theorem bmi_overflow_counterexample :
    get_mass_measurement_from_form [("mass_kg", "0.000000001")] (some 180)
      tsNoon = Run.panicked := by
  decide

/-- C4 (amended): BMI computation, within the representable range: every
    body-mass measurement actually constructed with a configured height
    (write path and read path alike) carries
    `bmi = mass / (height_cm / 100) ^ 2` exactly — construction succeeds
    exactly when the `i32` rational arithmetic stays in range, since an
    out-of-range squaring or division aborts the request instead of
    producing a value; with no configured height the BMI field is `none`,
    never zero. -/
theorem bmi_exact_formula (kv : FormData) (hc : Int) (now : Timestamp)
    (m : BodyMassMeasurement) (rows : List MassRow)
    (l : List BodyMassMeasurement) :
    (get_mass_measurement_from_form kv (some hc) now = .ok m →
      m.bmi = some (m.mass_kg / ((hc : ℚ) / 100) ^ 2)) ∧
    (get_mass_measurement_from_form kv none now = .ok m → m.bmi = none) ∧
    (get_recent_mass_measurements (some hc) rows = .ok l →
      ∀ mm ∈ l, mm.bmi = some (mm.mass_kg / ((hc : ℚ) / 100) ^ 2)) ∧
    (get_recent_mass_measurements none rows = .ok l →
      ∀ mm ∈ l, mm.bmi = none) := by
  refine ⟨fun h => ?_, fun h => ?_, fun h => ?_, fun h => ?_⟩
  · cases hv : get_req_form_r32_gt0 kv "mass_kg" with
    | error e =>
      rw [get_mass_measurement_from_form, hv] at h
      exact Run.noConfusion h
    | ok mass =>
      rw [get_mass_measurement_from_form, hv] at h
      simp only at h
      cases hsq : ratMul (mkRat hc 100) (mkRat hc 100) with
      | none =>
        rw [hsq] at h
        exact Run.noConfusion h
      | some sqh =>
        rw [hsq] at h
        simp only at h
        cases hd : r32Div mass sqh with
        | none =>
          rw [hd] at h
          exact Run.noConfusion h
        | some bmi =>
          rw [hd] at h
          obtain ⟨hsq0, hbmi⟩ := r32Div_some mass sqh bmi hd
          have hsqv : sqh = ((hc : ℚ) / 100) ^ 2 := by
            rw [ratMul_some _ _ _ hsq, square_height_eq]
          cases h
          show some bmi = some (mass / ((hc : ℚ) / 100) ^ 2)
          rw [hbmi, hsqv]
  · cases hv : get_req_form_r32_gt0 kv "mass_kg" with
    | error e =>
      rw [get_mass_measurement_from_form, hv] at h
      exact Run.noConfusion h
    | ok mass =>
      rw [get_mass_measurement_from_form, hv] at h
      simp only at h
      cases h
      rfl
  · simp only [get_recent_mass_measurements] at h
    cases hsq : ratMul (mkRat hc 100) (mkRat hc 100) with
    | none =>
      rw [hsq] at h
      exact Run.noConfusion h
    | some sqh =>
      rw [hsq] at h
      simp only at h
      have hsqv : sqh = ((hc : ℚ) / 100) ^ 2 := by
        rw [ratMul_some _ _ _ hsq, square_height_eq]
      subst hsqv
      exact massRowsLoop_all (some (((hc : ℚ) / 100) ^ 2))
        (fun mm => mm.bmi = some (mm.mass_kg / ((hc : ℚ) / 100) ^ 2))
        (fun row mm hr => by
          show mm.bmi = some (mm.mass_kg / ((hc : ℚ) / 100) ^ 2)
          rw [massRowToMeasurement_some_bmi _ row mm hr])
        rows l h
  · simp only [get_recent_mass_measurements] at h
    exact massRowsLoop_all none (fun mm => mm.bmi = none)
      (fun row mm hr => massRowToMeasurement_none_bmi row mm hr) rows l h

theorem bmi_exact_formula_witness :
    (⟨-1, tsNoon, mkRat 70 1, some (mkRat 1750 81)⟩ :
      BodyMassMeasurement).bmi =
      some ((mkRat 70 1 : ℚ) / (((180 : Int) : ℚ) / 100) ^ 2) :=
  (bmi_exact_formula [("mass_kg", "70")] 180 tsNoon
    ⟨-1, tsNoon, mkRat 70 1, some (mkRat 1750 81)⟩ [] []).1 (by decide)

theorem dailyMs_addToDaily (hours : Hours) (m : BloodPressureMeasurement)
    (e : DailyBloodPressureMeasurements) :
    dailyMs (addToDaily hours m e) = m ::ₘ dailyMs e := by
  simp only [addToDaily]
  split_ifs with h1 h2 h3 h4
  · simp only [dailyMs, optMs, h1.2]
    rw [← Multiset.singleton_add]
    abel
  · simp only [dailyMs, optMs, h2.2.2]
    rw [← Multiset.singleton_add]
    abel
  · simp only [dailyMs, optMs, h3.2.2]
    rw [← Multiset.singleton_add]
    abel
  · simp only [dailyMs, optMs, h4.2]
    rw [← Multiset.singleton_add]
    abel
  · simp only [dailyMs]
    rw [← Multiset.coe_add, Multiset.coe_singleton, ← Multiset.singleton_add]
    abel

theorem mapMs_upsert (k : List Nat)
    (f : DailyBloodPressureMeasurements → DailyBloodPressureMeasurements)
    (init : DailyBloodPressureMeasurements) (m : BloodPressureMeasurement)
    (hf : ∀ d, dailyMs (f d) = m ::ₘ dailyMs d) (hinit : dailyMs init = 0) :
    ∀ l : BucketMap, mapMs (mapUpsert k f init l) = m ::ₘ mapMs l := by
  intro l
  induction l with
  | nil =>
    simp [mapMs, mapUpsert, hf, hinit]
  | cons p rest ih =>
    rw [mapUpsert]
    split_ifs with hlt hgt
    · simp only [mapMs, List.map_cons, List.sum_cons, hf, hinit]
      rw [← Multiset.singleton_add, ← Multiset.singleton_add]
      abel
    · simp only [mapMs, List.map_cons, List.sum_cons] at ih ⊢
      rw [ih, ← Multiset.singleton_add, ← Multiset.singleton_add]
      abel
    · simp only [mapMs, List.map_cons, List.sum_cons, hf]
      rw [← Multiset.singleton_add, ← Multiset.singleton_add]
      abel

theorem dailyMs_new_empty (ds : List Nat) :
    dailyMs (DailyBloodPressureMeasurements.new_empty ds) = 0 := by
  rfl

theorem mapMs_bucketStep (hours : Hours) (map : BucketMap)
    (m : BloodPressureMeasurement) :
    mapMs (bucketStep hours map m) = m ::ₘ mapMs map := by
  rw [bucketStep]
  exact mapMs_upsert _ _ _ m (fun d => dailyMs_addToDaily hours m d)
    (dailyMs_new_empty _) map

theorem mapMs_bucketFold (hours : Hours) :
    ∀ (ms : List BloodPressureMeasurement) (map : BucketMap),
      mapMs (ms.foldl (bucketStep hours) map) =
        mapMs map + (ms : Multiset BloodPressureMeasurement) := by
  intro ms
  induction ms with
  | nil => simp
  | cons m rest ih =>
    intro map
    rw [List.foldl_cons, ih, mapMs_bucketStep, ← Multiset.cons_coe]
    rw [← Multiset.singleton_add, ← Multiset.singleton_add]
    abel

/-- C10: The bucketing pass conserves measurements: the multiset of all
    measurements across the emitted buckets' named slots and overflow lists
    is exactly the input sequence's multiset — nothing dropped, nothing
    duplicated — and in particular the total count equals the input
    length. -/
theorem bucketing_conserves_measurements (hours : Hours)
    (ms : List BloodPressureMeasurement) :
    ((bucketEmit hours ms).map dailyMs).sum =
      (ms : Multiset BloodPressureMeasurement) ∧
    Multiset.card ((bucketEmit hours ms).map dailyMs).sum = ms.length := by
  have h : ((bucketEmit hours ms).map dailyMs).sum =
      (ms : Multiset BloodPressureMeasurement) := by
    have h2 := mapMs_bucketFold hours ms []
    simp only [mapMs, List.map_nil, List.sum_nil, zero_add] at h2
    rw [bucketEmit, List.map_reverse, List.sum_reverse, List.map_map]
    simp only [bucketPass]
    simpa [Function.comp] using h2
  exact ⟨h, by rw [h, Multiset.coe_card]⟩

theorem lexLt_single (a b : Nat) : lexLt [a] [b] = true ↔ a < b := by
  simp only [lexLt]
  split_ifs with h1 h2 <;> simp_all

theorem lexLt_cons_same (a : Nat) (x y : List Nat) :
    lexLt (a :: x) (a :: y) = lexLt x y := by
  simp [lexLt]

theorem lexLt_trans : ∀ (a b c : List Nat),
    lexLt a b = true → lexLt b c = true → lexLt a c = true := by
  intro a
  induction a with
  | nil =>
    intro b c h1 h2
    cases b with
    | nil => simp [lexLt] at h1
    | cons x xs =>
      cases c with
      | nil => simp [lexLt] at h2
      | cons y ys => simp [lexLt]
  | cons a as ih =>
    intro b c h1 h2
    cases b with
    | nil => simp [lexLt] at h1
    | cons x xs =>
      cases c with
      | nil => simp [lexLt] at h2
      | cons y ys =>
        simp only [lexLt] at h1 h2 ⊢
        by_cases hax : a < x
        · by_cases hxy : x < y
          · rw [if_pos (lt_trans hax hxy)]
          · by_cases hyx : y < x
            · rw [if_neg hxy, if_pos hyx] at h2
              cases h2
            · have hxeq : x = y := by omega
              rw [if_pos (hxeq ▸ hax)]
        · rw [if_neg hax] at h1
          by_cases hxa : x < a
          · rw [if_pos hxa] at h1
            cases h1
          · rw [if_neg hxa] at h1
            have hae : a = x := by omega
            subst hae
            by_cases hay : a < y
            · rw [if_pos hay]
            · by_cases hya : y < a
              · rw [if_neg hay, if_pos hya] at h2
                cases h2
              · rw [if_neg hay, if_neg hya] at h2 ⊢
                exact ih xs ys h1 h2

theorem eq_of_not_lexLt : ∀ (a b : List Nat),
    lexLt a b = false → lexLt b a = false → a = b := by
  intro a
  induction a with
  | nil =>
    intro b h1 _
    cases b with
    | nil => rfl
    | cons x xs => simp [lexLt] at h1
  | cons a as ih =>
    intro b h1 h2
    cases b with
    | nil => simp [lexLt] at h2
    | cons x xs =>
      simp only [lexLt] at h1 h2
      by_cases hax : a < x
      · rw [if_pos hax] at h1
        cases h1
      · by_cases hxa : x < a
        · rw [if_pos hxa] at h2
          cases h2
        · have hae : a = x := by omega
          subst hae
          rw [if_neg hax, if_neg hxa] at h1
          rw [if_neg hxa, if_neg hax] at h2
          rw [ih xs h1 h2]

theorem lexLt_append : ∀ (p q x y : List Nat), p.length = q.length →
    (lexLt (p ++ x) (q ++ y) = true ↔
      lexLt p q = true ∨ (p = q ∧ lexLt x y = true)) := by
  intro p
  induction p with
  | nil =>
    intro q x y hlen
    cases q with
    | nil => simp [lexLt]
    | cons b qs => simp at hlen
  | cons a as ih =>
    intro q x y hlen
    cases q with
    | nil => simp at hlen
    | cons b qs =>
      simp only [List.cons_append, lexLt]
      by_cases hab : a < b
      · simp [hab]
      · by_cases hba : b < a
        · simp only [if_neg hab, if_pos hba]
          constructor
          · intro h
            cases h
          · rintro (h | ⟨heq, _⟩)
            · cases h
            · have : a = b := by
                have := List.head_eq_of_cons_eq heq
                exact this
              omega
        · have hae : a = b := by omega
          subst hae
          simp only [if_neg hab, List.append_eq]
          rw [ih qs x y (by simpa using hlen)]
          simp [List.cons.injEq]

theorem pad_length : ∀ (w n : Nat), (pad w n).length = w
  | 0, _ => rfl
  | w + 1, n => by simp [pad, pad_length w]

theorem pad_inj : ∀ (w a b : Nat), a < 10 ^ w → b < 10 ^ w →
    pad w a = pad w b → a = b
  | 0, a, b, ha, hb, _ => by
    simp only [pow_zero] at ha hb
    omega
  | w + 1, a, b, ha, hb, h => by
    rw [pow_succ] at ha hb
    simp only [pad] at h
    obtain ⟨h1, h2⟩ := List.append_inj h (by rw [pad_length, pad_length])
    have ha' : a / 10 < 10 ^ w := by omega
    have hb' : b / 10 < 10 ^ w := by omega
    have hq : a / 10 = b / 10 := pad_inj w _ _ ha' hb' h1
    have hd : 48 + a % 10 = 48 + b % 10 := List.head_eq_of_cons_eq h2
    omega

theorem pad_lt_iff : ∀ (w a b : Nat), a < 10 ^ w → b < 10 ^ w →
    (lexLt (pad w a) (pad w b) = true ↔ a < b)
  | 0, a, b, ha, hb => by
    simp only [pow_zero] at ha hb
    simp only [pad, lexLt]
    constructor
    · intro h
      cases h
    · omega
  | w + 1, a, b, ha, hb => by
    rw [pow_succ] at ha hb
    have ha' : a / 10 < 10 ^ w := by omega
    have hb' : b / 10 < 10 ^ w := by omega
    simp only [pad]
    rw [lexLt_append _ _ _ _ (by rw [pad_length, pad_length])]
    rw [pad_lt_iff w _ _ ha' hb', lexLt_single]
    constructor
    · rintro (h | ⟨heq, hlt⟩)
      · omega
      · have := pad_inj w _ _ ha' hb' heq
        omega
    · intro h
      by_cases hq : a / 10 < b / 10
      · exact Or.inl hq
      · have hqe : a / 10 = b / 10 := by omega
        exact Or.inr ⟨by rw [hqe], by omega⟩

theorem fmtDate_lt_iff (d1 d2 : Date) (h1 : validDate d1)
    (h2 : validDate d2) :
    (lexLt (fmtDate d1) (fmtDate d2) = true ↔ dateLt d1 d2) := by
  obtain ⟨hy1a, hy1b, hm1a, hm1b, hd1a, hd1b⟩ := h1
  obtain ⟨hy2a, hy2b, hm2a, hm2b, hd2a, hd2b⟩ := h2
  have hny1 : ¬ d1.year < 0 := by omega
  have hny2 : ¬ d2.year < 0 := by omega
  have hpy1 : d1.year.natAbs < 10000 := by omega
  have hpy2 : d2.year.natAbs < 10000 := by omega
  have hpy1' : d1.year.natAbs < 10 ^ 4 := by norm_num; omega
  have hpy2' : d2.year.natAbs < 10 ^ 4 := by norm_num; omega
  have hm1' : d1.month < 10 ^ 2 := by norm_num; omega
  have hm2' : d2.month < 10 ^ 2 := by norm_num; omega
  have hd1' : d1.day < 10 ^ 2 := by norm_num; omega
  have hd2' : d2.day < 10 ^ 2 := by norm_num; omega
  rw [fmtDate, fmtDate, if_neg hny1, if_neg hny2, padYear, padYear,
    if_pos hpy1, if_pos hpy2]
  simp only [List.nil_append]
  rw [lexLt_append _ _ _ _ (by rw [pad_length, pad_length])]
  rw [pad_lt_iff 4 _ _ hpy1' hpy2', lexLt_cons_same]
  rw [lexLt_append _ _ _ _ (by rw [pad_length, pad_length])]
  rw [pad_lt_iff 2 _ _ hm1' hm2', lexLt_cons_same]
  rw [pad_lt_iff 2 _ _ hd1' hd2']
  rw [dateLt]
  constructor
  · rintro (hy | ⟨hyeq, hm | ⟨hmeq, hd⟩⟩)
    · exact Or.inl (by omega)
    · have hy : d1.year = d2.year := by
        have := pad_inj 4 _ _ hpy1' hpy2' hyeq
        omega
      exact Or.inr ⟨hy, Or.inl hm⟩
    · have hy : d1.year = d2.year := by
        have := pad_inj 4 _ _ hpy1' hpy2' hyeq
        omega
      have hm : d1.month = d2.month := pad_inj 2 _ _ hm1' hm2' hmeq
      exact Or.inr ⟨hy, Or.inr ⟨hm, hd⟩⟩
  · rintro (hy | ⟨hyeq, hm | ⟨hmeq, hd⟩⟩)
    · exact Or.inl (by omega)
    · refine Or.inr ⟨?_, Or.inl hm⟩
      have : d1.year.natAbs = d2.year.natAbs := by omega
      rw [this]
    · refine Or.inr ⟨?_, ?_⟩
      · have : d1.year.natAbs = d2.year.natAbs := by omega
        rw [this]
      · exact Or.inr ⟨by rw [hmeq], hd⟩

theorem mapUpsert_mem (k : List Nat)
    (f : DailyBloodPressureMeasurements → DailyBloodPressureMeasurements)
    (init : DailyBloodPressureMeasurements) :
    ∀ (l : BucketMap) (q : List Nat × DailyBloodPressureMeasurements),
      q ∈ mapUpsert k f init l → q.1 = k ∨ q ∈ l := by
  intro l
  induction l with
  | nil =>
    intro q hq
    rw [mapUpsert] at hq
    rcases List.mem_singleton.mp hq with h
    rw [h]
    exact Or.inl rfl
  | cons p rest ih =>
    intro q hq
    rw [mapUpsert] at hq
    split_ifs at hq with hlt hgt
    · rcases List.mem_cons.mp hq with h | h
      · rw [h]
        exact Or.inl rfl
      · exact Or.inr h
    · rcases List.mem_cons.mp hq with h | h
      · exact Or.inr (h ▸ List.mem_cons_self p rest)
      · rcases ih q h with h2 | h2
        · exact Or.inl h2
        · exact Or.inr (List.mem_cons_of_mem p h2)
    · rcases List.mem_cons.mp hq with h | h
      · left
        rw [h]
        exact (eq_of_not_lexLt p.1 k (by simpa using hgt)
          (by simpa using hlt)).symm ▸ rfl
      · exact Or.inr (List.mem_cons_of_mem p h)

theorem mapUpsert_sorted (k : List Nat)
    (f : DailyBloodPressureMeasurements → DailyBloodPressureMeasurements)
    (init : DailyBloodPressureMeasurements) :
    ∀ l : BucketMap, keysSorted l → keysSorted (mapUpsert k f init l) := by
  intro l
  induction l with
  | nil =>
    intro _
    simp [mapUpsert, keysSorted]
  | cons p rest ih =>
    intro hs
    rw [keysSorted, List.pairwise_cons] at hs
    rw [mapUpsert]
    split_ifs with hlt hgt
    · rw [keysSorted, List.pairwise_cons]
      refine ⟨?_, List.pairwise_cons.mpr hs⟩
      intro q hq
      rcases List.mem_cons.mp hq with h | h
      · rw [h]
        exact hlt
      · exact lexLt_trans _ _ _ hlt (hs.1 q h)
    · rw [keysSorted, List.pairwise_cons]
      refine ⟨?_, ih hs.2⟩
      intro q hq
      rcases mapUpsert_mem k f init rest q hq with h | h
      · rw [h]
        exact hgt
      · exact hs.1 q h
    · rw [keysSorted, List.pairwise_cons]
      exact ⟨fun q hq => hs.1 q hq, hs.2⟩

theorem bucketPass_sorted (hours : Hours)
    (ms : List BloodPressureMeasurement) :
    keysSorted (bucketPass hours ms) := by
  rw [bucketPass]
  have h : ∀ (l : List BloodPressureMeasurement) (map : BucketMap),
      keysSorted map → keysSorted (l.foldl (bucketStep hours) map) := by
    intro l
    induction l with
    | nil => intro map hmap; exact hmap
    | cons m rest ih =>
      intro map hmap
      rw [List.foldl_cons]
      exact ih _ (mapUpsert_sorted _ _ _ map hmap)
  exact h ms [] (by simp [keysSorted])

theorem addToDaily_ds (hours : Hours) (m : BloodPressureMeasurement)
    (e : DailyBloodPressureMeasurements) :
    (addToDaily hours m e).date_string = e.date_string := by
  simp only [addToDaily]
  split_ifs <;> rfl

theorem mapUpsert_ds (k : List Nat)
    (f : DailyBloodPressureMeasurements → DailyBloodPressureMeasurements)
    (init : DailyBloodPressureMeasurements)
    (hf : ∀ d, (f d).date_string = d.date_string)
    (hinit : init.date_string = k) :
    ∀ l : BucketMap, (∀ q ∈ l, (q.2).date_string = q.1) →
      ∀ q ∈ mapUpsert k f init l, (q.2).date_string = q.1 := by
  intro l
  induction l with
  | nil =>
    intro _ q hq
    rw [mapUpsert] at hq
    rcases List.mem_singleton.mp hq with h
    rw [h]
    rw [hf, hinit]
  | cons p rest ih =>
    intro hl q hq
    rw [mapUpsert] at hq
    split_ifs at hq with hlt hgt
    · rcases List.mem_cons.mp hq with h | h
      · rw [h]
        rw [hf, hinit]
      · exact hl q h
    · rcases List.mem_cons.mp hq with h | h
      · exact hl q (h ▸ List.mem_cons_self p rest)
      · exact ih (fun r hr => hl r (List.mem_cons_of_mem p hr)) q h
    · rcases List.mem_cons.mp hq with h | h
      · rw [h]
        rw [hf]
        exact hl p (List.mem_cons_self p rest)
      · exact hl q (List.mem_cons_of_mem p h)

theorem bucketPass_ds (hours : Hours) (ms : List BloodPressureMeasurement) :
    ∀ q ∈ bucketPass hours ms, (q.2).date_string = q.1 := by
  rw [bucketPass]
  have h : ∀ (l : List BloodPressureMeasurement) (map : BucketMap),
      (∀ q ∈ map, (q.2).date_string = q.1) →
      ∀ q ∈ l.foldl (bucketStep hours) map, (q.2).date_string = q.1 := by
    intro l
    induction l with
    | nil => intro map hmap; exact hmap
    | cons m rest ih =>
      intro map hmap
      rw [List.foldl_cons]
      refine ih _ ?_
      have hstep : ∀ q ∈ bucketStep hours map m, (q.2).date_string = q.1 := by
        simp only [bucketStep]
        exact mapUpsert_ds (fmtDate (bucketDate hours m.timestamp))
          (addToDaily hours m)
          (DailyBloodPressureMeasurements.new_empty
            (fmtDate (bucketDate hours m.timestamp)))
          (fun d => addToDaily_ds hours m d) rfl map hmap
      exact hstep
  exact h ms [] (by simp)

/-- C6: Bucket emission order: the emitted daily buckets come out in
    strictly descending byte order of their `%Y-%m-%d` date-string keys, and
    for dates with four-digit years that byte order coincides with
    chronological order, so the most recent date comes first. -/
theorem bucket_emission_order (hours : Hours)
    (ms : List BloodPressureMeasurement) (d1 d2 : Date) :
    (bucketEmit hours ms).Pairwise
      (fun b1 b2 => lexLt b2.date_string b1.date_string = true) ∧
    (validDate d1 → validDate d2 →
      (lexLt (fmtDate d1) (fmtDate d2) = true ↔ dateLt d1 d2)) := by
  constructor
  · have hsorted := bucketPass_sorted hours ms
    have hds := bucketPass_ds hours ms
    rw [bucketEmit, List.pairwise_reverse, List.pairwise_map]
    rw [keysSorted] at hsorted
    refine hsorted.imp_of_mem ?_
    intro p q hp hq hr
    show lexLt (p.2).date_string (q.2).date_string = true
    rw [hds p hp, hds q hq]
    exact hr
  · exact fun hv1 hv2 => fmtDate_lt_iff d1 d2 hv1 hv2

theorem bucket_emission_order_witness :
    lexLt (fmtDate ⟨2024, 1, 1⟩) (fmtDate ⟨2024, 1, 2⟩) = true :=
  ((bucket_emission_order cfgSix [] ⟨2024, 1, 1⟩ ⟨2024, 1, 2⟩).2 (by decide)
    (by decide)).mpr (by decide)


